import Mathlib

/-!
Shallow embedding of `terry` (main.go), a fuzzing loop driver, together with
proofs about its netstring codec, resilient connector, generator client and
the main execution/archival loop.

Conventions used throughout:
* A byte stream is a `List Nat` of byte values (each value below 256 in Go;
  the embedding does not need the bound except where noted).
* Reading from a `bufio.Reader` over a finite stream is modelled as
  consuming a prefix of the list; end of the list is end of stream (EOF).
* Go runtime panics (which abort the process) are modelled explicitly as a
  distinguished result, distinct from returned errors.
-/

namespace Terry

/-- `MAXLEN` from main.go:23 — the 10 MiB candidate-size ceiling. -/
def MAXLEN : Nat := 10 * 1024 * 1024

/-! ### Netstring decoder (`readNetString`, main.go:51-81) -/

/-- Models `bufio.Reader.ReadBytes(':')` followed by stripping the delimiter
(main.go:53-57): split the stream at the first `':'` byte (58).  `none`
models EOF before any `':'` is found (ReadBytes returns an error, which
`readNetString` propagates). -/
def readBytesColon : List Nat → Option (List Nat × List Nat)
  | [] => none
  | b :: rest =>
    if b = 58 then some ([], rest)
    else
      match readBytesColon rest with
      | none => none
      | some (pre, post) => some (b :: pre, post)

/-- A byte is an ASCII decimal digit (as tested by Go strconv). -/
def isGoDigit (c : Nat) : Bool := 48 ≤ c && c ≤ 57

/-- Most-significant-first accumulation of ASCII digits into a number,
as performed digit by digit inside Go strconv.ParseInt. -/
def digitsToNat (ds : List Nat) : Nat := ds.foldl (fun acc c => acc * 10 + (c - 48)) 0

/-- Models Go `strconv.ParseInt(s, 10, 0)` on a 64-bit platform
(main.go:57).  Returns the parsed value together with an error flag.
On a syntax error (empty string, lone sign, non-digit byte) Go returns
`(0, ErrSyntax)`; on range overflow it returns the clamped int64 value
together with `ErrRange`.  `43` is ASCII `'+'`, `45` is `'-'`. -/
def parseGoInt : List Nat → Int × Bool
  | [] => (0, true)
  | c :: rest =>
    let neg := c = 45
    let ds := if c = 43 || c = 45 then rest else c :: rest
    if ds.isEmpty then (0, true)
    else if ds.all isGoDigit then
      let v := digitsToNat ds
      if neg then
        if v ≤ 2 ^ 63 then (-(v : Int), false) else (-(2 ^ 63 : Int), true)
      else
        if v ≤ 2 ^ 63 - 1 then ((v : Int), false) else ((2 ^ 63 - 1 : Int), true)
    else (0, true)

/-- Result of `readNetString`.  `ok data rest` is a successful decode
returning the payload and the unconsumed remainder of the stream;
`protoErr` is a returned error; `panics` marks the Go runtime panic
raised by `make([]byte, n)` for negative `n` (main.go:68), which aborts
the process rather than returning. -/
inductive NetResult where
  | ok (data rest : List Nat)
  | protoErr (msg : String)
  | panics
deriving DecidableEq

/-- Models `readNetString` (main.go:51-81).  Mirrors the source order of
checks: the `dataLen > MAXLEN` test runs before the parse-error test
(the comment at main.go:58 relies on ParseInt yielding 0 on syntax
error), and both run before any payload byte is read.  A parsed negative
length passes both checks and reaches `make([]byte, dataLen)`, which
panics at runtime in Go. -/
def readNetString (stream : List Nat) : NetResult :=
  match readBytesColon stream with
  | none => .protoErr "EOF"
  | some (lenBytes, rest) =>
    let p := parseGoInt lenBytes
    let i := p.1
    if i > (MAXLEN : Int) then .protoErr "Proposed Length > MAXLEN"
    else if p.2 then .protoErr "Error Parsing Length"
    else if i < 0 then .panics
    else
      let n := i.toNat
      if rest.length < n then .protoErr "Error reading data"
      else
        match rest.drop n with
        | [] => .protoErr "Missing terminator"
        | b :: rest2 =>
          if b = 44 then .ok (rest.take n) rest2 else .protoErr "Missing terminator"

/-! ### Netstring encoder (the `fmt.Sprintf("%d:%s,", len(t), string(t))`
frame built by `fixTest`, main.go:118) -/

/-- ASCII decimal rendering of a natural number, as produced by Go
`fmt.Sprintf("%d", n)` for non-negative `n`. -/
def natDigits (n : Nat) : List Nat :=
  if n = 0 then [48] else (Nat.digits 10 n).reverse.map (fun d => d + 48)

/-- The netstring frame `<decimal length>:<raw bytes>,` sent by `fixTest`
(main.go:118): length digits, `':'` (58), payload, `','` (44). -/
def encodeNetString (t : List Nat) : List Nat :=
  natDigits t.length ++ 58 :: (t ++ [44])

/-! ### Resilient connector (`sleepyConnect`, main.go:35-49) -/

/-- Models the `sleepyConnect` retry loop, with delays in milliseconds.
`zzz` is the current delay (Go enters with `1 * time.Millisecond` and
doubles it after every failed dial, so `zzz` is never 0 on any reachable
call; the `zzz = 0` branch exists only to make the recursion well
founded and is unreachable from `sleepyConnectRun`).  `dialOk k` tells
whether the `k`-th dial attempt succeeds.  Returns the list of sleeps
performed, in order, and `true` on connection / `false` for the
"connection to server timed out." error. -/
def sleepyConnect (dialOk : Nat → Bool) (k zzz : Nat) : List Nat × Bool :=
  if zzz = 0 then ([], false)
  else if 1000 < zzz then ([], false)
  else if dialOk k then ([zzz], true)
  else (zzz :: (sleepyConnect dialOk (k + 1) (2 * zzz)).1,
        (sleepyConnect dialOk (k + 1) (2 * zzz)).2)
termination_by 2001 - zzz
decreasing_by all_goals (simp_wf; omega)

/-- `sleepyConnect` as called: the loop starts at a 1 ms delay (main.go:36). -/
def sleepyConnectRun (dialOk : Nat → Bool) : List Nat × Bool :=
  sleepyConnect dialOk 0 1

/-! ### Generator client (`getTest`, main.go:90-105) -/

/-- Models `getTest`: read the whole generator stream to EOF as the raw
candidate while a `TeeReader` feeds the same bytes to the digest
(main.go:97-104).  `hash` stands for the `crypto/sha1` digest function
(Go standard library, outside this repository); the model captures that
the digest is computed over exactly the bytes received. -/
def getTest (hash : List Nat → List Nat) (stream : List Nat) : List Nat × List Nat :=
  (stream, hash stream)

/-- The address `getTest` dials for every test (main.go:92) — a hardcoded
constant, independent of the `-server` flag. -/
def getTestAddr : String := "127.0.0.1:4141"

/-- The generator address verified by the startup connectivity check
(main.go:160-187): local radamsa on `127.0.0.1:4141` when a `-src`
corpus directory is given, otherwise the `-server` flag's value. -/
def startupServerAddr (srcDir server : String) : String :=
  if srcDir.length > 0 then "127.0.0.1:4141" else server

/-! ### Fixer client (`fixTest`, main.go:116-126) -/

/-- Outcome of one `fixTest` call, seen from `main`. -/
inductive FixResult where
  | ok (fixed : List Nat)
  | err (msg : String)
  | panic
deriving DecidableEq

/-- Models `fixTest` (main.go:116-126): send the candidate as a netstring
frame, then decode one reply frame from the fixer's stream with
`readNetString`.  Returns the frame written to the fixer socket together
with the decode outcome (`[]` with an error on decode failure in Go;
a decoder panic aborts the process). -/
def fixTest (t : List Nat) (reply : List Nat) : List Nat × FixResult :=
  (encodeNetString t,
   match readNetString reply with
   | .ok d _ => .ok d
   | .protoErr m => .err m
   | .panics => .panic)

/-! ### Crash archival (`saveTest`, main.go:107-114) -/

/-- The `encoding/hex` digit table: `0`-`9` then `a`-`f`. -/
def hexDigitChar (n : Nat) : Char :=
  if n < 10 then Char.ofNat (48 + n) else Char.ofNat (87 + n)

/-- Models `hex.EncodeToString` over byte values (each below 256): two
lowercase hex digits per byte, high nibble first. -/
def hexEncode (bs : List Nat) : String :=
  String.mk (bs.foldr (fun b acc => hexDigitChar (b / 16) :: hexDigitChar (b % 16) :: acc) [])

/-- The diagnostic-stream lines `saveTest` produces when the crash-record
write fails with error text `e` (main.go:110-112).  The source evaluates
`hex.Dump(raw)` at main.go:111, but `hex.Dump` returns its dump as a
string and that return value is discarded, so no dump line reaches the
stream: the emitted output does not depend on the candidate bytes. -/
def saveTestFailDiagnostics (e : String) (_raw : List Nat) : List String :=
  ["[SUPER SAD] failed to write crashfile!: " ++ e,
   "[SUPER SAD] (that hexdump was the last test)"]

/-! ### One iteration of the main loop (main.go:255-279) -/

/-- Observable outcome of one iteration of the `for` loop in `main`.
`skipped`: the oversized-candidate `continue` at main.go:259.
`fatalFix` / `fatalStage` / `fatalSave`: the three `log.Fatalf` exits
reachable from the loop (fix error, staging write failure, crash-record
write failure; `fatalSave` carries the bytes passed to `saveTest`).
`panicked`: a Go runtime panic inside `readNetString`.
`completed staged crash diag`: the iteration ran the target with
`staged` as the staged-file contents; `crash = some (path, bytes)` when
a fault was recorded at `path` with contents `bytes`; `diag` is the
emitted fault-notification excerpt. -/
inductive IterOutcome where
  | skipped
  | fatalFix (msg : String)
  | fatalStage
  | fatalSave (dumped : List Nat)
  | panicked
  | completed (staged : List Nat) (crash : Option (String × List Nat)) (diag : Option String)
deriving DecidableEq

/-- Models one iteration of the main loop (main.go:255-279), with its
environment made explicit: `hash` is the sha1 digest function, `dest`
the `-dest` directory, `raw` the bytes the generator streams this
iteration, `fixEnabled` whether `fixConn != nil`, `fixReply` the bytes
available on the fixer connection, `stageOk` / `saveOk` whether the two
file writes succeed, `runFault` whether `francis.Run` returns `err ==
nil` (which this program reads as "crash"), `diag` the diagnostic
excerpt `ci.Extra[0]`, and `count` the iteration counter on entry.
Returns the outcome and the counter on exit.  Note the source reassigns
`test` to the fixer's output (main.go:262) before both `stageTest(test)`
and `saveTest(..., test)`, while `sha` stays the digest of the pre-fix
bytes. -/
def oneIteration (hash : List Nat → List Nat) (dest : String) (raw : List Nat)
    (fixEnabled : Bool) (fixReply : List Nat) (stageOk : Bool)
    (runFault : Bool) (diag : String) (saveOk : Bool) (count : Nat) :
    IterOutcome × Nat :=
  let p := getTest hash raw
  let test := p.1
  let sha := p.2
  if test.length > MAXLEN then (.skipped, count)
  else
    match (if fixEnabled then (fixTest test fixReply).2 else FixResult.ok test) with
    | .panic => (.panicked, count)
    | .err m => (.fatalFix m, count)
    | .ok test =>
      if stageOk then
        let count := count + 1
        if runFault then
          let fn := hexEncode sha ++ ".raw"
          if saveOk then
            (.completed test (some (dest ++ "/crashes/" ++ fn, test)) (some diag), count)
          else (.fatalSave test, count)
        else (.completed test none none, count)
      else (.fatalStage, count)

/-! ### Helper lemmas about the netstring codec -/

lemma mem_natDigits {n c : Nat} (h : c ∈ natDigits n) : 48 ≤ c ∧ c ≤ 57 := by
  unfold natDigits at h
  split at h
  · simp at h
    omega
  · rw [List.mem_map] at h
    obtain ⟨d, hd, rfl⟩ := h
    rw [List.mem_reverse] at hd
    have := Nat.digits_lt_base (by norm_num) hd
    omega

lemma natDigits_ne_nil (n : Nat) : natDigits n ≠ [] := by
  unfold natDigits
  split
  · simp
  · simp [Nat.digits_ne_nil_iff_ne_zero, *]

lemma colon_not_mem_natDigits (n : Nat) : 58 ∉ natDigits n := by
  intro h
  have := mem_natDigits h
  omega

lemma readBytesColon_append {pre : List Nat} (h : 58 ∉ pre) (rest : List Nat) :
    readBytesColon (pre ++ 58 :: rest) = some (pre, rest) := by
  induction pre with
  | nil => simp [readBytesColon]
  | cons b bs ih =>
    have hb : b ≠ 58 := by
      intro hb
      exact h (by simp [hb])
    have hbs : 58 ∉ bs := fun hx => h (List.mem_cons_of_mem b hx)
    simp [readBytesColon, hb, ih hbs]

lemma digitsToNat_map48 (l : List Nat) :
    digitsToNat (l.map (fun d => d + 48)) = l.foldl (fun a d => a * 10 + d) 0 := by
  simp [digitsToNat, List.foldl_map]

lemma foldl_reverse_digits (l : List Nat) :
    l.reverse.foldl (fun a d => a * 10 + d) 0 = Nat.ofDigits 10 l := by
  induction l with
  | nil => simp [Nat.ofDigits_nil]
  | cons d l ih =>
    rw [List.reverse_cons, List.foldl_append, Nat.ofDigits_cons, ih]
    simp
    omega

lemma digitsToNat_natDigits (n : Nat) : digitsToNat (natDigits n) = n := by
  unfold natDigits
  split
  · simp [digitsToNat]
    omega
  · rw [digitsToNat_map48, foldl_reverse_digits, Nat.ofDigits_digits]

lemma parseGoInt_digits (ds : List Nat) (hne : ds ≠ [])
    (hd : ∀ c ∈ ds, 48 ≤ c ∧ c ≤ 57) (hv : digitsToNat ds ≤ 2 ^ 63 - 1) :
    parseGoInt ds = ((digitsToNat ds : Int), false) := by
  cases ds with
  | nil => simp at hne
  | cons c rest =>
    have hc := hd c (List.mem_cons_self c rest)
    have h43 : ¬(c = 43) := by omega
    have h45 : ¬(c = 45) := by omega
    have hall : (c :: rest).all isGoDigit = true := by
      rw [List.all_eq_true]
      intro x hx
      have := hd x hx
      simp [isGoDigit]
      omega
    simp [parseGoInt, h43, h45, hall, hv]
    exact le_trans hv (by norm_num)

lemma parseGoInt_natDigits {n : Nat} (h : n ≤ 2 ^ 63 - 1) :
    parseGoInt (natDigits n) = ((n : Int), false) := by
  rw [parseGoInt_digits (natDigits n) (natDigits_ne_nil n)
      (fun c hc => mem_natDigits hc) (by rw [digitsToNat_natDigits]; exact h),
    digitsToNat_natDigits]

/-- Decoding one encoded frame from the front of a stream returns the
original payload and leaves the rest of the stream untouched. -/
lemma readNetString_encode (t rest : List Nat) (h : t.length ≤ MAXLEN) :
    readNetString (encodeNetString t ++ rest) = .ok t rest := by
  have hsplit : encodeNetString t ++ rest = natDigits t.length ++ 58 :: (t ++ 44 :: rest) := by
    simp [encodeNetString]
  have h63 : t.length ≤ 2 ^ 63 - 1 := by
    have : MAXLEN ≤ 2 ^ 63 - 1 := by
      unfold MAXLEN
      norm_num
    omega
  rw [hsplit]
  unfold readNetString
  rw [readBytesColon_append (colon_not_mem_natDigits t.length)]
  dsimp only
  rw [parseGoInt_natDigits h63]
  have h1 : ¬((t.length : Int) > (MAXLEN : Int)) := by
    simp only [not_lt]
    exact_mod_cast h
  have h2 : ¬((t.length : Int) < 0) := not_lt.mpr (Int.natCast_nonneg _)
  simp only [if_neg h1, if_neg h2, Bool.false_eq_true, if_false, Int.toNat_natCast]
  have h3 : ¬((t ++ 44 :: rest).length < t.length) := by
    simp [List.length_append]
  rw [if_neg h3]
  have h4 : (t ++ 44 :: rest).drop t.length = 44 :: rest := List.drop_left t (44 :: rest)
  have h5 : (t ++ 44 :: rest).take t.length = t := List.take_left t (44 :: rest)
  simp [h4, h5]

/-- Any payload `readNetString` returns is at most `MAXLEN` bytes: the
length check happens before the payload is read. -/
lemma readNetString_ok_len {s d r : List Nat} (h : readNetString s = .ok d r) :
    d.length ≤ MAXLEN := by
  unfold readNetString at h
  cases hc : readBytesColon s with
  | none =>
    rw [hc] at h
    simp at h
  | some pr =>
    obtain ⟨pre, rest⟩ := pr
    rw [hc] at h
    dsimp only at h
    by_cases h1 : (parseGoInt pre).1 > (MAXLEN : Int)
    · rw [if_pos h1] at h
      exact absurd h (by simp)
    rw [if_neg h1] at h
    by_cases h2 : (parseGoInt pre).2 = true
    · rw [if_pos h2] at h
      exact absurd h (by simp)
    rw [if_neg h2] at h
    by_cases h3 : (parseGoInt pre).1 < 0
    · rw [if_pos h3] at h
      exact absurd h (by simp)
    rw [if_neg h3] at h
    by_cases h4 : rest.length < (parseGoInt pre).1.toNat
    · rw [if_pos h4] at h
      exact absurd h (by simp)
    rw [if_neg h4] at h
    cases hdrop : rest.drop (parseGoInt pre).1.toNat with
    | nil =>
      rw [hdrop] at h
      exact absurd h (by simp)
    | cons b rest2 =>
      rw [hdrop] at h
      dsimp only at h
      by_cases h5 : b = 44
      · rw [if_pos h5] at h
        injection h with hd hr
        rw [← hd, List.length_take]
        exact le_trans (min_le_left _ _) (Int.toNat_le.mpr (not_lt.mp h1))
      · rw [if_neg h5] at h
        exact absurd h (by simp)

/-- A declared length over `MAXLEN` is rejected as soon as the length
prefix is parsed, whatever bytes (if any) follow the colon. -/
lemma readNetString_overlong (s suffix : List Nat) (h1 : 58 ∉ s)
    (h2 : (parseGoInt s).1 > (MAXLEN : Int)) :
    readNetString (s ++ 58 :: suffix) = .protoErr "Proposed Length > MAXLEN" := by
  unfold readNetString
  rw [readBytesColon_append h1]
  simp only [h2, if_true, if_pos h2]

/-- The crash record (archive path and persisted bytes) produced by an
iteration, if any. -/
def crashRecord : IterOutcome → Option (String × List Nat)
  | .completed _ c _ => c
  | _ => none

/-- The bytes an iteration wrote to the Staged File, if the staging write
happened and succeeded (`completed` and `fatalSave` outcomes are the ones
reached only after `stageTest` succeeded). -/
def stagedBytes : IterOutcome → Option (List Nat)
  | .completed s _ _ => some s
  | .fatalSave s => some s
  | _ => none

/-! ### Claim theorems -/

/-- C3: for every byte sequence of length at most the 10 MiB maximum,
decoding the netstring encoding of that sequence (decimal length, colon,
raw bytes, comma) returns exactly the original bytes, consuming exactly
one frame (any following bytes are left unconsumed); in particular this
holds for the empty sequence encoded as `0:,`. -/
theorem netstring_roundtrip (t rest : List Nat) (h : t.length ≤ MAXLEN) :
    readNetString (encodeNetString t ++ rest) = .ok t rest :=
  readNetString_encode t rest h

theorem netstring_roundtrip_witness :
    ([] : List Nat).length ≤ MAXLEN
    ∧ encodeNetString [] = [48, 58, 44]
    ∧ readNetString (encodeNetString [] ++ [99]) = .ok [] [99]
    ∧ [65, 66, 67, 68].length ≤ MAXLEN
    ∧ readNetString (encodeNetString [65, 66, 67, 68] ++ []) = .ok [65, 66, 67, 68] [] :=
  ⟨by decide, by decide,
   netstring_roundtrip [] [99] (by decide), by decide,
   netstring_roundtrip [65, 66, 67, 68] [] (by decide)⟩

/-- C6: against an address that never accepts a connection, the
connector sleeps 1, 2, 4, ..., 512 ms (doubling after each failed dial,
continuing only while the delay is at most one second), makes exactly 10
attempts totalling 1023 ms of sleep, and then returns the
connection-timeout failure; the recursion is total, so it never loops
forever. -/
lemma sleepyConnect_stop (dialOk : Nat → Bool) (k zzz : Nat) (h1 : 1000 < zzz) :
    sleepyConnect dialOk k zzz = ([], false) := by
  have h0 : ¬(zzz = 0) := by omega
  rw [sleepyConnect]
  simp [h0, h1]

lemma sleepyConnect_fail_step (dialOk : Nat → Bool) (k zzz : Nat) (h0 : ¬(zzz = 0))
    (h1 : ¬(1000 < zzz)) (h2 : dialOk k = false) :
    sleepyConnect dialOk k zzz
      = (zzz :: (sleepyConnect dialOk (k + 1) (2 * zzz)).1,
         (sleepyConnect dialOk (k + 1) (2 * zzz)).2) := by
  rw [sleepyConnect]
  simp [h0, h1, h2]

lemma sleepyConnect_never (k zzz : Nat) (h0 : ¬(zzz = 0)) (h1 : ¬(1000 < zzz)) :
    sleepyConnect (fun _ => false) k zzz
      = (zzz :: (sleepyConnect (fun _ => false) (k + 1) (2 * zzz)).1,
         (sleepyConnect (fun _ => false) (k + 1) (2 * zzz)).2) :=
  sleepyConnect_fail_step _ k zzz h0 h1 rfl

/-- C6: against an address that never accepts a connection, the
connector sleeps 1, 2, 4, ..., 512 ms (doubling after each failed dial,
continuing only while the delay is at most one second), makes exactly 10
attempts totalling 1023 ms of sleep, and then returns the
connection-timeout failure; the recursion is total, so it never loops
forever. -/
theorem backoff_terminates :
    (sleepyConnectRun (fun _ => false)).1 = [1, 2, 4, 8, 16, 32, 64, 128, 256, 512]
    ∧ (sleepyConnectRun (fun _ => false)).2 = false
    ∧ (sleepyConnectRun (fun _ => false)).1.sum = 1023
    ∧ (sleepyConnectRun (fun _ => false)).1.length = 10 := by
  have e10 : sleepyConnect (fun _ => false) 10 1024 = ([], false) :=
    sleepyConnect_stop _ 10 1024 (by norm_num)
  have e9 : sleepyConnect (fun _ => false) 9 512 = ([512], false) := by
    rw [sleepyConnect_never 9 512 (by norm_num) (by norm_num)]
    norm_num [e10]
  have e8 : sleepyConnect (fun _ => false) 8 256 = ([256, 512], false) := by
    rw [sleepyConnect_never 8 256 (by norm_num) (by norm_num)]
    norm_num [e9]
  have e7 : sleepyConnect (fun _ => false) 7 128 = ([128, 256, 512], false) := by
    rw [sleepyConnect_never 7 128 (by norm_num) (by norm_num)]
    norm_num [e8]
  have e6 : sleepyConnect (fun _ => false) 6 64 = ([64, 128, 256, 512], false) := by
    rw [sleepyConnect_never 6 64 (by norm_num) (by norm_num)]
    norm_num [e7]
  have e5 : sleepyConnect (fun _ => false) 5 32 = ([32, 64, 128, 256, 512], false) := by
    rw [sleepyConnect_never 5 32 (by norm_num) (by norm_num)]
    norm_num [e6]
  have e4 : sleepyConnect (fun _ => false) 4 16 = ([16, 32, 64, 128, 256, 512], false) := by
    rw [sleepyConnect_never 4 16 (by norm_num) (by norm_num)]
    norm_num [e5]
  have e3 : sleepyConnect (fun _ => false) 3 8 = ([8, 16, 32, 64, 128, 256, 512], false) := by
    rw [sleepyConnect_never 3 8 (by norm_num) (by norm_num)]
    norm_num [e4]
  have e2 : sleepyConnect (fun _ => false) 2 4 = ([4, 8, 16, 32, 64, 128, 256, 512], false) := by
    rw [sleepyConnect_never 2 4 (by norm_num) (by norm_num)]
    norm_num [e3]
  have e1 : sleepyConnect (fun _ => false) 1 2
      = ([2, 4, 8, 16, 32, 64, 128, 256, 512], false) := by
    rw [sleepyConnect_never 1 2 (by norm_num) (by norm_num)]
    norm_num [e2]
  have e0 : sleepyConnect (fun _ => false) 0 1
      = ([1, 2, 4, 8, 16, 32, 64, 128, 256, 512], false) := by
    rw [sleepyConnect_never 0 1 (by norm_num) (by norm_num)]
    norm_num [e1]
  have hrun : sleepyConnectRun (fun _ => false)
      = ([1, 2, 4, 8, 16, 32, 64, 128, 256, 512], false) := by
    rw [sleepyConnectRun, e0]
  rw [hrun]
  norm_num

/-- C4: a declared length exactly equal to the 10 MiB maximum is
accepted (the check is strict `>`), and every frame whose length prefix
parses to a value above the maximum — including values that overflow
int64, which Go clamps to `2^63 - 1` — fails with the size protocol
error as soon as the prefix is parsed, for every possible remainder of
the stream (in particular an empty one), i.e. before any payload byte is
read or allocated. -/
theorem netstring_maxlen_boundary :
    (∀ payload rest : List Nat, payload.length = MAXLEN →
      readNetString (encodeNetString payload ++ rest) = .ok payload rest)
    ∧ (∀ s suffix : List Nat, 58 ∉ s → (parseGoInt s).1 > (MAXLEN : Int) →
      readNetString (s ++ 58 :: suffix) = .protoErr "Proposed Length > MAXLEN") :=
  ⟨fun payload rest h => readNetString_encode payload rest (le_of_eq h),
   fun s suffix h1 h2 => readNetString_overlong s suffix h1 h2⟩

theorem netstring_maxlen_boundary_witness :
    ((List.replicate MAXLEN 0).length = MAXLEN
      ∧ readNetString (encodeNetString (List.replicate MAXLEN 0) ++ [])
          = .ok (List.replicate MAXLEN 0) [])
    ∧ (58 ∉ [49, 48, 52, 56, 53, 55, 54, 49]
      ∧ (parseGoInt [49, 48, 52, 56, 53, 55, 54, 49]).1 > (MAXLEN : Int)
      ∧ readNetString ([49, 48, 52, 56, 53, 55, 54, 49] ++ 58 :: [])
          = .protoErr "Proposed Length > MAXLEN") :=
  ⟨⟨List.length_replicate MAXLEN 0,
    netstring_maxlen_boundary.1 _ [] (List.length_replicate MAXLEN 0)⟩,
   by decide, by decide,
   netstring_maxlen_boundary.2 _ [] (by decide) (by decide)⟩

/-- C5 (code bug): the length prefix `-1` parses successfully (Go
`ParseInt` returns `-1` with no error), slips past both the `> MAXLEN`
check and the parse-error check, and the decoder reaches
`make([]byte, -1)` — a Go runtime panic that crashes the process —,
instead of the protocol error the spec requires for negative lengths. -/
theorem negative_length_panics :
    parseGoInt [45, 49] = (-1, false)
    ∧ readNetString [45, 49, 58, 44] = .panics :=
  ⟨by decide, by decide⟩

/-- C7: a raw candidate over the 10 MiB ceiling makes the iteration a
no-op `continue`: whatever the fixer configuration, fixer stream, write
outcomes and execution outcome, the outcome is `skipped` (no staging, no
crash record, no fatal exit) and the counter is unchanged. -/
theorem oversized_candidate_skipped (hash : List Nat → List Nat) (dest : String)
    (raw reply : List Nat) (fE stOk rF sOk : Bool) (diag : String) (cnt : Nat)
    (h : raw.length > MAXLEN) :
    oneIteration hash dest raw fE reply stOk rF diag sOk cnt = (.skipped, cnt) := by
  simp [oneIteration, getTest, h]

theorem oversized_candidate_skipped_witness :
    (List.replicate (MAXLEN + 1) 0).length > MAXLEN
    ∧ oneIteration (fun l => l) "dest" (List.replicate (MAXLEN + 1) 0) true [] true true
        "SIGSEGV" true 5
      = (.skipped, 5) :=
  ⟨by rw [List.length_replicate]; omega,
   oversized_candidate_skipped _ _ _ _ _ _ _ _ _ _
     (by rw [List.length_replicate]; omega)⟩

/-- C1 counterexample: raw candidate `[65]` (`"A"`), fixer configured
and replying with the frame `2:BB,`, target faults, all writes succeed.
The Crash Record persists `[66, 66]` — the fixer-transformed bytes that
were staged — not the pre-fix raw candidate `[65]` (the source reassigns
`test` at main.go:262 and passes that to `saveTest` at main.go:276). -/
theorem crash_record_cex :
    crashRecord (oneIteration (fun _ => [171]) "dest" [65] true [50, 58, 66, 66, 44]
        true true "SIGSEGV" true 0).1
      = some ("dest" ++ "/crashes/" ++ (hexEncode [171] ++ ".raw"), [66, 66])
    ∧ [66, 66] ≠ [65] :=
  ⟨by decide, by decide⟩

/-- C1 (amended): on a fault the Crash Record persists the candidate as
staged — the fixer-transformed bytes when a fixer is configured, the raw
candidate when not — while its name always comes from the digest of the
pre-fix raw bytes. -/
theorem crash_record_stores_staged_bytes (hash : List Nat → List Nat) (dest : String)
    (raw fixed restR reply : List Nat) (diag : String) (cnt : Nat)
    (hlen : raw.length ≤ MAXLEN)
    (hfix : readNetString reply = .ok fixed restR) :
    (oneIteration hash dest raw true reply true true diag true cnt).1
      = .completed fixed
          (some (dest ++ "/crashes/" ++ (hexEncode (hash raw) ++ ".raw"), fixed))
          (some diag)
    ∧ (oneIteration hash dest raw false reply true true diag true cnt).1
      = .completed raw
          (some (dest ++ "/crashes/" ++ (hexEncode (hash raw) ++ ".raw"), raw))
          (some diag) := by
  have hnot : ¬(raw.length > MAXLEN) := not_lt.mpr hlen
  constructor
  · simp [oneIteration, getTest, fixTest, hnot, hfix]
  · simp [oneIteration, getTest, hnot]

theorem crash_record_stores_staged_bytes_witness :
    [65].length ≤ MAXLEN
    ∧ readNetString [50, 58, 66, 66, 44] = .ok [66, 66] []
    ∧ (oneIteration (fun _ => [171]) "dest" [65] true [50, 58, 66, 66, 44]
          true true "SIGSEGV" true 0).1
        = .completed [66, 66]
            (some ("dest" ++ "/crashes/" ++ (hexEncode ((fun _ => [171]) [65]) ++ ".raw"),
              [66, 66]))
            (some "SIGSEGV") :=
  ⟨by decide, by decide,
   (crash_record_stores_staged_bytes (fun _ => [171]) "dest" [65] [66, 66] []
     [50, 58, 66, 66, 44] "SIGSEGV" 0 (by decide) (by decide)).1⟩

/-- C2: whenever a fault-triggering iteration archives a Crash Record,
the record's path is `<dest>/crashes/<hex digest>.raw` where the digest
is computed (by the sha1 collaborator `hash`) over the pre-fix raw bytes
as received from the generator — so the filename is identical whether or
not fixing is enabled, whatever the fixer replies. -/
theorem crash_record_digest_of_raw_bytes (hash : List Nat → List Nat) (dest : String)
    (raw fixed restR reply : List Nat) (diag : String) (cnt : Nat)
    (hlen : raw.length ≤ MAXLEN)
    (hfix : readNetString reply = .ok fixed restR) :
    (crashRecord (oneIteration hash dest raw true reply true true diag true cnt).1).map
        Prod.fst
      = some (dest ++ "/crashes/" ++ (hexEncode (hash raw) ++ ".raw"))
    ∧ (crashRecord (oneIteration hash dest raw false reply true true diag true cnt).1).map
        Prod.fst
      = some (dest ++ "/crashes/" ++ (hexEncode (hash raw) ++ ".raw")) := by
  have hnot : ¬(raw.length > MAXLEN) := not_lt.mpr hlen
  constructor
  · simp [oneIteration, getTest, fixTest, hnot, hfix, crashRecord]
  · simp [oneIteration, getTest, hnot, crashRecord]

theorem crash_record_digest_of_raw_bytes_witness :
    [65].length ≤ MAXLEN
    ∧ readNetString [50, 58, 66, 66, 44] = .ok [66, 66] []
    ∧ (crashRecord (oneIteration (fun _ => [171]) "dest" [65] true [50, 58, 66, 66, 44]
          true true "SIGSEGV" true 0).1).map Prod.fst
        = some ("dest" ++ "/crashes/" ++ (hexEncode ((fun _ => [171]) [65]) ++ ".raw"))
    ∧ (crashRecord (oneIteration (fun _ => [171]) "dest" [65] false [50, 58, 66, 66, 44]
          true true "SIGSEGV" true 0).1).map Prod.fst
        = some ("dest" ++ "/crashes/" ++ (hexEncode ((fun _ => [171]) [65]) ++ ".raw")) :=
  ⟨by decide, by decide,
   (crash_record_digest_of_raw_bytes (fun _ => [171]) "dest" [65] [66, 66] []
     [50, 58, 66, 66, 44] "SIGSEGV" 0 (by decide) (by decide)).1,
   (crash_record_digest_of_raw_bytes (fun _ => [171]) "dest" [65] [66, 66] []
     [50, 58, 66, 66, 44] "SIGSEGV" 0 (by decide) (by decide)).2⟩

/-- C8 (code bug): with a remote generator configuration (`-src` empty,
`-server` set) the startup check verifies the `-server` address, but
`getTest` dials the hardcoded `127.0.0.1:4141` for every test — not the
peer verified at startup.  The rest of the claim does hold of `getTest`:
it reads the whole stream as the candidate and digests exactly the
received bytes (last conjunct, with a digest function that records the
bytes it was fed). -/
theorem getTest_dials_hardcoded_address :
    startupServerAddr "" "192.168.1.1:4141" = "192.168.1.1:4141"
    ∧ getTestAddr = "127.0.0.1:4141"
    ∧ ¬(startupServerAddr "" "192.168.1.1:4141" = getTestAddr)
    ∧ getTest (fun l => l ++ [0]) [65, 66, 67] = ([65, 66, 67], [65, 66, 67, 0]) :=
  ⟨by decide, by decide, by decide, by decide⟩

/-- C9 (code bug support): if the crash-record write fails on a
fault-triggering iteration, the iteration ends in the fatal
`fatalSave` exit — the loop never continues past a failed archival
write — but the diagnostics printed on the way out are the same for
every candidate: `hex.Dump`'s return value is discarded at main.go:111,
so the promised hex dump of the bytes never reaches the diagnostic
stream. -/
theorem save_failure_fatal_no_dump (hash : List Nat → List Nat) (dest : String)
    (raw : List Nat) (diag : String) (cnt : Nat) (hlen : raw.length ≤ MAXLEN) :
    (oneIteration hash dest raw false [] true true diag false cnt).1 = .fatalSave raw
    ∧ ∀ e : String, ∀ r r' : List Nat,
        saveTestFailDiagnostics e r = saveTestFailDiagnostics e r' := by
  refine ⟨?_, fun e r r' => rfl⟩
  simp [oneIteration, getTest, not_lt.mpr hlen]

theorem save_failure_fatal_no_dump_witness :
    [65, 66].length ≤ MAXLEN
    ∧ (oneIteration (fun _ => [171]) "dest" [65, 66] false [] true true "SIGSEGV"
          false 0).1
        = .fatalSave [65, 66] :=
  ⟨by decide,
   (save_failure_fatal_no_dump (fun _ => [171]) "dest" [65, 66] "SIGSEGV" 0 (by decide)).1⟩

/-- C10: every byte sequence the main loop writes to the Staged File is
at most 10 MiB long: a raw candidate is staged only after the ceiling
check, and a fixer-transformed candidate comes out of `readNetString`,
whose length check bounds it by `MAXLEN`. -/
theorem staged_bytes_bounded (hash : List Nat → List Nat) (dest : String)
    (raw reply : List Nat) (fE stOk rF sOk : Bool) (diag : String) (cnt : Nat)
    (s : List Nat)
    (h : stagedBytes (oneIteration hash dest raw fE reply stOk rF diag sOk cnt).1 = some s) :
    s.length ≤ MAXLEN := by
  unfold oneIteration at h
  simp only [getTest] at h
  by_cases hlen : MAXLEN < raw.length
  · rw [if_pos hlen] at h
    exact absurd h (by simp [stagedBytes])
  rw [if_neg hlen] at h
  have hraw : raw.length ≤ MAXLEN := not_lt.mp hlen
  cases fE with
  | false =>
    cases stOk with
    | false =>
      exact absurd h (by simp [stagedBytes])
    | true =>
      cases rF with
      | false =>
        simp [stagedBytes] at h
        subst h
        exact hraw
      | true =>
        cases sOk with
        | false =>
          simp [stagedBytes] at h
          subst h
          exact hraw
        | true =>
          simp [stagedBytes] at h
          subst h
          exact hraw
  | true =>
    cases hfix : readNetString reply with
    | protoErr m =>
      simp only [fixTest, hfix] at h
      exact absurd h (by simp [stagedBytes])
    | panics =>
      simp only [fixTest, hfix] at h
      exact absurd h (by simp [stagedBytes])
    | ok d r =>
      have hd : d.length ≤ MAXLEN := readNetString_ok_len hfix
      simp only [fixTest, hfix] at h
      cases stOk with
      | false =>
        exact absurd h (by simp [stagedBytes])
      | true =>
        cases rF with
        | false =>
          simp [stagedBytes] at h
          subst h
          exact hd
        | true =>
          cases sOk with
          | false =>
            simp [stagedBytes] at h
            subst h
            exact hd
          | true =>
            simp [stagedBytes] at h
            subst h
            exact hd

theorem staged_bytes_bounded_witness :
    stagedBytes (oneIteration (fun _ => [171]) "dest" [65] true [50, 58, 66, 66, 44]
        true true "SIGSEGV" true 0).1 = some [66, 66]
    ∧ [66, 66].length ≤ MAXLEN :=
  ⟨by decide,
   staged_bytes_bounded (fun _ => [171]) "dest" [65] [50, 58, 66, 66, 44]
     true true true true "SIGSEGV" 0 [66, 66] (by decide)⟩

end Terry
